import Mathlib

/-!
Verification of the Copilot Chat provider adapter
(`crates/language_models/src/provider/copilot_chat.rs`).

The development shallowly embeds the two algorithmic components of the file:

* `map_to_language_model_completion_events` — the stream normalizer that turns
  the vendor's streamed response events into canonical completion events,
  reassembling fragmented tool calls in an index-keyed accumulator; and
* `into_copilot_chat` — the pure request adapter that translates a canonical
  chat request into the vendor wire request.

External data declarations consumed by the file (the `copilot_chat` wire types
and the `language_model` canonical types) are modelled from the spec's data
model section; machine strings are Lean `String`s, vendor JSON values are the
`CJson` inductive below, and the external `serde_json` parser/serializer is
modelled by an executable recursive-descent parser over that inductive.
-/

/-- Model of `serde_json::Value`: a JSON value.  Numbers are kept as their
numeric literal text (the adapter never inspects numeric values), object
fields as an association list in parse order. -/
inductive CJson where
  | null : CJson
  | bool (b : Bool) : CJson
  | num (lit : String) : CJson
  | str (s : String) : CJson
  | arr (items : List CJson) : CJson
  | obj (members : List (String × CJson)) : CJson
deriving Repr

namespace CJson

/-- JSON insignificant whitespace. -/
def isWsChar (c : Char) : Bool :=
  c = ' ' || c = '\t' || c = '\n' || c = '\r'

/-- Drop leading JSON whitespace. -/
def skipWs : List Char → List Char
  | [] => []
  | c :: cs => if isWsChar c then skipWs cs else c :: cs

/-- Value of one hex digit, if any. -/
def hexVal (c : Char) : Option Nat :=
  if '0' ≤ c ∧ c ≤ '9' then some (c.toNat - '0'.toNat)
  else if 'a' ≤ c ∧ c ≤ 'f' then some (c.toNat - 'a'.toNat + 10)
  else if 'A' ≤ c ∧ c ≤ 'F' then some (c.toNat - 'A'.toNat + 10)
  else none

/-- Parse the body of a JSON string literal (the opening quote already
consumed); returns the decoded string and the remaining input. -/
def parseStringBody (acc : List Char) : List Char → Except String (String × List Char)
  | [] => .error "unexpected end of input in string literal"
  | '"' :: rest => .ok (String.mk acc.reverse, rest)
  | '\\' :: e :: rest =>
    match e with
    | '"' => parseStringBody ('"' :: acc) rest
    | '\\' => parseStringBody ('\\' :: acc) rest
    | '/' => parseStringBody ('/' :: acc) rest
    | 'b' => parseStringBody ('\x08' :: acc) rest
    | 'f' => parseStringBody ('\x0c' :: acc) rest
    | 'n' => parseStringBody ('\n' :: acc) rest
    | 'r' => parseStringBody ('\r' :: acc) rest
    | 't' => parseStringBody ('\t' :: acc) rest
    | 'u' =>
      match rest with
      | a :: b :: c :: d :: rest2 =>
        match hexVal a, hexVal b, hexVal c, hexVal d with
        | some ha, some hb, some hc, some hd =>
          let n := ((ha * 16 + hb) * 16 + hc) * 16 + hd
          parseStringBody (Char.ofNat n :: acc) rest2
        | _, _, _, _ => .error "invalid unicode escape"
      | _ => .error "invalid unicode escape"
    | _ => .error "invalid escape character"
  | ['\\'] => .error "unexpected end of input in string literal"
  | c :: rest => parseStringBody (c :: acc) rest

/-- Longest leading run of decimal digits. -/
def takeDigits : List Char → List Char × List Char
  | [] => ([], [])
  | c :: cs =>
    if c.isDigit then
      let (ds, r) := takeDigits cs
      (c :: ds, r)
    else ([], c :: cs)

/-- Parse the optional fractional part of a numeric literal. -/
def parseFracPart : List Char → Except String (List Char × List Char)
  | '.' :: r =>
    let (fs, r2) := takeDigits r
    if fs.isEmpty then .error "expected digits after decimal point"
    else .ok ('.' :: fs, r2)
  | cs => .ok ([], cs)

/-- Parse the optional exponent part of a numeric literal. -/
def parseExpPart : List Char → Except String (List Char × List Char)
  | e :: r =>
    if e = 'e' ∨ e = 'E' then
      let (sign, r1) :=
        match r with
        | '+' :: r2 => (['+'], r2)
        | '-' :: r2 => (['-'], r2)
        | _ => ([], r)
      let (es, r2) := takeDigits r1
      if es.isEmpty then .error "expected digits in exponent"
      else .ok (e :: (sign ++ es), r2)
    else .ok ([], e :: r)
  | [] => .ok ([], [])

/-- Parse a JSON numeric literal, keeping its text. -/
def parseNumber (cs : List Char) : Except String (String × List Char) :=
  let (neg, cs1) :=
    match cs with
    | '-' :: r => (['-'], r)
    | _ => ([], cs)
  let (ds, cs2) := takeDigits cs1
  if ds.isEmpty then .error "expected value"
  else
    match parseFracPart cs2 with
    | .error e => .error e
    | .ok (frac, cs3) =>
      match parseExpPart cs3 with
      | .error e => .error e
      | .ok (ex, cs4) => .ok (String.mk (neg ++ ds ++ frac ++ ex), cs4)

mutual

/-- Fuelled recursive-descent parser for one JSON value. -/
def parseValueF : Nat → List Char → Except String (CJson × List Char)
  | 0, _ => .error "maximum nesting depth exceeded"
  | fuel + 1, cs =>
    match skipWs cs with
    | [] => .error "expected value, found end of input"
    | '"' :: rest =>
      match parseStringBody [] rest with
      | .ok (s, r) => .ok (.str s, r)
      | .error e => .error e
    | '\x7b' :: rest =>
      match skipWs rest with
      | '\x7d' :: r => .ok (.obj [], r)
      | _ =>
        match parseMembersF fuel rest with
        | .ok (ms, r) => .ok (.obj ms, r)
        | .error e => .error e
    | '[' :: rest =>
      match skipWs rest with
      | ']' :: r => .ok (.arr [], r)
      | _ =>
        match parseItemsF fuel rest with
        | .ok (vs, r) => .ok (.arr vs, r)
        | .error e => .error e
    | 't' :: 'r' :: 'u' :: 'e' :: rest => .ok (.bool true, rest)
    | 'f' :: 'a' :: 'l' :: 's' :: 'e' :: rest => .ok (.bool false, rest)
    | 'n' :: 'u' :: 'l' :: 'l' :: rest => .ok (.null, rest)
    | cs' =>
      match parseNumber cs' with
      | .ok (lit, r) => .ok (.num lit, r)
      | .error e => .error e

/-- Fuelled parser for the comma-separated items of a non-empty array. -/
def parseItemsF : Nat → List Char → Except String (List CJson × List Char)
  | 0, _ => .error "maximum nesting depth exceeded"
  | fuel + 1, cs =>
    match parseValueF fuel cs with
    | .error e => .error e
    | .ok (v, r) =>
      match skipWs r with
      | ',' :: r2 =>
        match parseItemsF fuel r2 with
        | .ok (vs, r3) => .ok (v :: vs, r3)
        | .error e => .error e
      | ']' :: r2 => .ok ([v], r2)
      | _ => .error "expected comma or closing bracket in array"

/-- Fuelled parser for the comma-separated members of a non-empty object. -/
def parseMembersF : Nat → List Char → Except String (List (String × CJson) × List Char)
  | 0, _ => .error "maximum nesting depth exceeded"
  | fuel + 1, cs =>
    match skipWs cs with
    | '"' :: rest =>
      match parseStringBody [] rest with
      | .error e => .error e
      | .ok (key, r) =>
        match skipWs r with
        | ':' :: r2 =>
          match parseValueF fuel r2 with
          | .error e => .error e
          | .ok (v, r3) =>
            match skipWs r3 with
            | ',' :: r4 =>
              match parseMembersF fuel r4 with
              | .ok (ms, r5) => .ok ((key, v) :: ms, r5)
              | .error e => .error e
            | '\x7d' :: r4 => .ok ([(key, v)], r4)
            | _ => .error "expected comma or closing brace in object"
        | _ => .error "expected colon after object key"
    | _ => .error "key must be a string"

end

/-- Model of `serde_json::Value::from_str`: parse a complete JSON document. -/
def parse (s : String) : Except String CJson :=
  match parseValueF (s.length + 1) s.toList with
  | .error e => .error e
  | .ok (v, rest) =>
    match skipWs rest with
    | [] => .ok v
    | _ => .error "trailing characters"

/-- Escape one character for inclusion in a serialized JSON string literal. -/
def escapeChar (c : Char) : List Char :=
  if c = '"' then ['\\', '"']
  else if c = '\\' then ['\\', '\\']
  else if c = '\n' then ['\\', 'n']
  else if c = '\r' then ['\\', 'r']
  else if c = '\t' then ['\\', 't']
  else if c.toNat < 32 then
    let hexDigit := fun (n : Nat) => if n < 10 then Char.ofNat ('0'.toNat + n)
      else Char.ofNat ('a'.toNat + (n - 10))
    ['\\', 'u', '0', '0', hexDigit (c.toNat / 16), hexDigit (c.toNat % 16)]
  else [c]

/-- Serialize a string as a JSON string literal. -/
def serializeString (s : String) : String :=
  String.mk ('"' :: (s.toList.foldr (fun c acc => escapeChar c ++ acc) ['"']))

mutual

/-- Model of `serde_json::to_string` on a `Value`; total (a `Value` always
serializes, which is why the adapter's `?` on it is dead in this model). -/
def serialize : CJson → String
  | .null => "null"
  | .bool true => "true"
  | .bool false => "false"
  | .num lit => lit
  | .str s => serializeString s
  | .arr items => "[" ++ serializeItems items ++ "]"
  | .obj members => "\x7b" ++ serializeMembers members ++ "\x7d"

/-- Serialize array items, comma separated. -/
def serializeItems : List CJson → String
  | [] => ""
  | [v] => serialize v
  | v :: vs => serialize v ++ "," ++ serializeItems vs

/-- Serialize object members, comma separated. -/
def serializeMembers : List (String × CJson) → String
  | [] => ""
  | [(k, v)] => serializeString k ++ ":" ++ serialize v
  | (k, v) :: ms => serializeString k ++ ":" ++ serialize v ++ "," ++ serializeMembers ms

end

end CJson

example : CJson.parse "\x7b\"x\":1\x7d" = .ok (.obj [("x", .num "1")]) := by rfl
example : CJson.parse "\x7bnot json" = .error "key must be a string" := by rfl
example : CJson.parse "" = .error "expected value, found end of input" := by rfl

/-!
## Stream normalizer: `map_to_language_model_completion_events`

Vendor response event shapes (`copilot::copilot_chat::ResponseEvent` and
friends) are external declarations; they are modelled from the spec's
interface section: each event has zero-or-more choices, each choice carries a
delta-or-message object, the delta an optional text content and an array of
`{index, id?, name?, argument-fragment?}` tool-call fragments, and the choice
an optional finish-reason string.
-/

/-- Modelled from the spec: the `name?`/`argument-fragment?` payload of a
tool-call fragment (`FunctionChunk` in the external crate). -/
structure FunctionChunk where
  name : Option String
  arguments : Option String
deriving Repr, DecidableEq

/-- Modelled from the spec: one tool-call fragment
`{index, id?, name?, argument-fragment?}` of a streamed delta. -/
structure ToolCallChunk where
  index : Nat
  id : Option String
  function : Option FunctionChunk
deriving Repr, DecidableEq

/-- Modelled from the spec: the delta-or-message object of a choice, carrying
optional text content and the tool-call fragments. -/
structure ResponseDelta where
  content : Option String
  tool_calls : List ToolCallChunk
deriving Repr, DecidableEq

/-- Modelled from the spec: one choice of a response event; `delta` is
populated in streaming mode, `message` in non-streaming mode, and
`finish_reason` is the vendor's optional terminal signal. -/
structure ResponseChoice where
  delta : Option ResponseDelta
  message : Option ResponseDelta
  finish_reason : Option String
deriving Repr, DecidableEq

/-- Modelled from the spec: one decoded vendor response event. -/
structure ResponseEvent where
  choices : List ResponseChoice
deriving Repr, DecidableEq

/-- The per-index tool-call accumulator entry (`RawToolCall` in the source),
with `#[derive(Default)]` giving empty strings. -/
structure RawToolCall where
  id : String := ""
  name : String := ""
  arguments : String := ""
deriving Repr, DecidableEq

/-- Stop reasons used by this adapter (`StopReason` in the host crate). -/
inductive StopReason where
  | endTurn : StopReason
  | toolUse : StopReason
deriving Repr, DecidableEq

/-- The host's reassembled tool-use payload (`LanguageModelToolUse`). -/
structure LanguageModelToolUse where
  id : String
  name : String
  is_input_complete : Bool
  input : CJson
  raw_input : String
deriving Repr

/-- Canonical completion events produced by the normalizer
(`LanguageModelCompletionEvent`); only the variants this adapter emits. -/
inductive LanguageModelCompletionEvent where
  | text (s : String) : LanguageModelCompletionEvent
  | toolUse (t : LanguageModelToolUse) : LanguageModelCompletionEvent
  | stop (r : StopReason) : LanguageModelCompletionEvent
deriving Repr

/-- Canonical completion errors (`LanguageModelCompletionError`): transport or
malformed-response failures wrapped from `anyhow` messages, and the structured
`BadInputJson` produced for unparsable tool arguments at drain time. -/
inductive LanguageModelCompletionError where
  | other (message : String) : LanguageModelCompletionError
  | badInputJson (id : String) (tool_name : String) (raw_input : String)
      (json_parse_error : String) : LanguageModelCompletionError
deriving Repr

/-- One item of the normalizer's output sequence
(`Result<LanguageModelCompletionEvent, LanguageModelCompletionError>`). -/
abbrev CompletionItem :=
  Except LanguageModelCompletionError LanguageModelCompletionEvent

/-- The tool-call accumulator `tool_calls_by_index`; the source's `HashMap` is
modelled as an association list in key-insertion order (the spec leaves drain
order unspecified). -/
abbrev ToolCallMap := List (Nat × RawToolCall)

/-- Store `v` at key `i`, replacing in place or appending a fresh key. -/
def ToolCallMap.setEntry : ToolCallMap → Nat → RawToolCall → ToolCallMap
  | [], i, v => [(i, v)]
  | (k, w) :: rest, i, v =>
    if k = i then (i, v) :: rest else (k, w) :: ToolCallMap.setEntry rest i v

/-- The mutations applied to one accumulator entry by one incoming fragment:
an incoming id replaces the stored id, an incoming name replaces the stored
name, incoming argument text is appended to the stored buffer (source lines
359–378). -/
def RawToolCall.applyChunk (entry : RawToolCall) (tool_call : ToolCallChunk) : RawToolCall :=
  let entry :=
    match tool_call.id with
    | some tool_id => { entry with id := tool_id }
    | none => entry
  match tool_call.function with
  | some function =>
    let entry :=
      match function.name with
      | some name => { entry with name := name }
      | none => entry
    match function.arguments with
    | some arguments => { entry with arguments := entry.arguments ++ arguments }
    | none => entry
  | none => entry

/-- `state.tool_calls_by_index.entry(index).or_default()` followed by the
fragment's mutations. -/
def applyToolCallFragment (acc : ToolCallMap) (tool_call : ToolCallChunk) : ToolCallMap :=
  let entry := (acc.lookup tool_call.index).getD {}
  ToolCallMap.setEntry acc tool_call.index (entry.applyChunk tool_call)

/-- Drain-time conversion of one accumulated tool call (source lines
388–417): an empty argument buffer becomes the empty JSON object; otherwise
the buffer is parsed, yielding a `ToolUse` event on success and a structured
`BadInputJson` error on failure. -/
def drainToolCall (tool_call : RawToolCall) : CompletionItem :=
  let arguments :=
    if tool_call.arguments.isEmpty then Except.ok (CJson.obj [])
    else CJson.parse tool_call.arguments
  match arguments with
  | .ok input =>
    .ok (.toolUse
      { id := tool_call.id
        name := tool_call.name
        is_input_complete := true
        input := input
        raw_input := tool_call.arguments })
  | .error error => .error (.badInputJson tool_call.id tool_call.name tool_call.arguments error)

/-- Processing of one `Ok` vendor event (the body of the source's `unfold`
closure, lines 333–434): select the first choice and its delta, emit the text
content, fold the tool-call fragments into the accumulator, then handle the
finish reason. -/
def processEvent (is_streaming : Bool) (acc : ToolCallMap) (event : ResponseEvent) :
    List CompletionItem × ToolCallMap :=
  match event.choices.head? with
  | none => ([.error (.other "Response contained no choices")], acc)
  | some choice =>
    match (if is_streaming then choice.delta else choice.message) with
    | none => ([.error (.other "Response contained no delta")], acc)
    | some delta =>
      let events : List CompletionItem :=
        match delta.content with
        | some content => [.ok (.text content)]
        | none => []
      let acc := delta.tool_calls.foldl applyToolCallFragment acc
      match choice.finish_reason with
      | some "stop" => (events ++ [.ok (.stop .endTurn)], acc)
      | some "tool_calls" =>
        (events ++ acc.map (fun p => drainToolCall p.2) ++ [.ok (.stop .toolUse)], [])
      | some _ => (events ++ [.ok (.stop .endTurn)], acc)
      | none => (events, acc)

/-- The normalizer's unfold loop over the whole vendor sequence: an `Err`
item from the source is surfaced as one error event and the loop continues
with the same accumulator; an `Ok` item is processed by `processEvent`. -/
def runNormalizer (is_streaming : Bool) :
    List (Except String ResponseEvent) → ToolCallMap → List CompletionItem
  | [], _ => []
  | .error err :: rest, acc =>
    .error (.other err) :: runNormalizer is_streaming rest acc
  | .ok event :: rest, acc =>
    let (out, acc') := processEvent is_streaming acc event
    out ++ runNormalizer is_streaming rest acc'

/-- `map_to_language_model_completion_events`: run the normalizer over the
vendor event sequence starting from an empty accumulator. -/
def map_to_language_model_completion_events (events : List (Except String ResponseEvent))
    (is_streaming : Bool) : List CompletionItem :=
  runNormalizer is_streaming events []

/-!
## Request adapter: `into_copilot_chat`

Host-side canonical types (`language_model` crate) and vendor wire types
(`copilot::copilot_chat` crate) are external declarations, modelled from the
spec's data model: messages with roles and ordered content blocks, the closed
content-block union, and the vendor message/tool union.
-/

/-- Host message roles. -/
inductive Role where
  | user : Role
  | assistant : Role
  | system : Role
deriving Repr, DecidableEq

/-- Modelled from the spec: a host image payload; only its base64 data URL is
observed by this adapter (`to_base64_url`). -/
structure LanguageModelImage where
  base64_url : String
deriving Repr, DecidableEq

/-- `LanguageModelImage::to_base64_url`. -/
def LanguageModelImage.to_base64_url (image : LanguageModelImage) : String :=
  image.base64_url

/-- A host `ToolUse` content block `{id, name, input}`. -/
structure HostToolUse where
  id : String
  name : String
  input : CJson
deriving Repr

/-- The content of a host `ToolResult` block: text or an image. -/
inductive LanguageModelToolResultContent where
  | text (t : String) : LanguageModelToolResultContent
  | image (image : LanguageModelImage) : LanguageModelToolResultContent
deriving Repr, DecidableEq

/-- A host `ToolResult` content block `{tool_use_id, tool_name, content}`. -/
structure HostToolResult where
  tool_use_id : String
  tool_name : String
  content : LanguageModelToolResultContent
deriving Repr, DecidableEq

/-- The closed host content-block union (`MessageContent`): Text, Thinking,
RedactedThinking, Image, ToolUse, ToolResult. -/
inductive MessageContent where
  | text (s : String) : MessageContent
  | thinking (text : String) : MessageContent
  | redactedThinking (data : String) : MessageContent
  | image (image : LanguageModelImage) : MessageContent
  | toolUse (tool_use : HostToolUse) : MessageContent
  | toolResult (tool_result : HostToolResult) : MessageContent
deriving Repr

/-- One host request message: a role and ordered content blocks. -/
structure LanguageModelRequestMessage where
  role : Role
  content : List MessageContent
deriving Repr

/-- A host tool definition (name, description, JSON-schema parameters). -/
structure LanguageModelRequestTool where
  name : String
  description : String
  input_schema : CJson
deriving Repr

/-- Host tool-choice values. -/
inductive LanguageModelToolChoice where
  | auto : LanguageModelToolChoice
  | any : LanguageModelToolChoice
  | none : LanguageModelToolChoice
deriving Repr, DecidableEq

/-- The canonical chat request: ordered messages, tool definitions and an
optional tool choice (the fields of `LanguageModelRequest` this adapter
reads). -/
structure LanguageModelRequest where
  messages : List LanguageModelRequestMessage
  tools : List LanguageModelRequestTool
  tool_choice : Option LanguageModelToolChoice
deriving Repr

/-- The target-model capability descriptor (`copilot_chat::Model`): only the
accessors used by this adapter are modelled. -/
structure CopilotChatModel where
  id : String
  supports_vision : Bool
  uses_streaming : Bool
deriving Repr, DecidableEq

/-- A vendor image reference. -/
structure ImageUrl where
  url : String
deriving Repr, DecidableEq

/-- One part of a vendor multipart message body. -/
inductive ChatMessagePart where
  | text (text : String) : ChatMessagePart
  | image (image_url : ImageUrl) : ChatMessagePart
deriving Repr, DecidableEq

/-- A vendor message body: plain text or a list of parts.  `From<String>`
gives `plain`, `From<Vec<ChatMessagePart>>` gives `multipart`. -/
inductive ChatMessageContent where
  | plain (text : String) : ChatMessageContent
  | multipart (parts : List ChatMessagePart) : ChatMessageContent
deriving Repr, DecidableEq

/-- Modelled from the spec: `ChatMessageContent::empty()`, the explicit
"empty" representation (not omission) used for an assistant message with no
text. -/
def ChatMessageContent.empty : ChatMessageContent :=
  .multipart []

/-- A serialized vendor tool invocation (`FunctionContent`). -/
structure FunctionContent where
  name : String
  arguments : String
deriving Repr, DecidableEq

/-- The content of a vendor tool call. -/
inductive ToolCallContent where
  | function (function : FunctionContent) : ToolCallContent
deriving Repr, DecidableEq

/-- A vendor tool call attached to an assistant message. -/
structure ToolCall where
  id : String
  content : ToolCallContent
deriving Repr, DecidableEq

/-- The vendor message union: System, User, Assistant, Tool. -/
inductive ChatMessage where
  | system (content : String) : ChatMessage
  | user (content : ChatMessageContent) : ChatMessage
  | assistant (content : ChatMessageContent) (tool_calls : List ToolCall) : ChatMessage
  | tool (tool_call_id : String) (content : ChatMessageContent) : ChatMessage
deriving Repr, DecidableEq

/-- A vendor tool definition (`Function`). -/
structure VendorFunction where
  name : String
  description : String
  parameters : CJson
deriving Repr

/-- The vendor tool union. -/
inductive Tool where
  | function (function : VendorFunction) : Tool
deriving Repr

/-- Vendor tool-choice values. -/
inductive CopilotToolChoice where
  | auto : CopilotToolChoice
  | any : CopilotToolChoice
  | none : CopilotToolChoice
deriving Repr, DecidableEq

/-- The vendor wire request (`copilot_chat::Request`); the `f32` sampling
temperature is modelled as a rational. -/
structure CopilotChatRequest where
  intent : Bool
  n : Nat
  stream : Bool
  temperature : ℚ
  model : String
  messages : List ChatMessage
  tools : List Tool
  tool_choice : Option CopilotToolChoice
deriving Repr

/-- One step of the coalescing loop (source lines 450–460): extend the last
collected message when the roles match, push otherwise.  The collected list
is kept reversed so its head is the loop's `last_mut`. -/
def coalesceStep (acc : List LanguageModelRequestMessage)
    (message : LanguageModelRequestMessage) : List LanguageModelRequestMessage :=
  match acc with
  | last_message :: rest =>
    if last_message.role = message.role then
      { last_message with content := last_message.content ++ message.content } :: rest
    else message :: last_message :: rest
  | [] => [message]

/-- Coalesce consecutive same-role messages, concatenating their content
blocks in order. -/
def coalesceMessages (messages : List LanguageModelRequestMessage) :
    List LanguageModelRequestMessage :=
  (messages.foldl coalesceStep []).reverse

/-- The sentinel text substituted for an image tool result when the model
lacks vision support. -/
def IMAGE_SENTINEL : String :=
  "[Tool responded with an image, but this model does not support vision]"

/-- The vendor Tool messages emitted for the ToolResult blocks of a User
message (source lines 467–493). -/
def toolResultMessages (model : CopilotChatModel) :
    List MessageContent → List ChatMessage
  | [] => []
  | .toolResult tool_result :: rest =>
    let content :=
      match tool_result.content with
      | .text text => ChatMessageContent.plain text
      | .image image =>
        if model.supports_vision then
          ChatMessageContent.multipart [.image { url := image.to_base64_url }]
        else
          ChatMessageContent.plain IMAGE_SENTINEL
    ChatMessage.tool tool_result.tool_use_id content :: toolResultMessages model rest
  | _ :: rest => toolResultMessages model rest

/-- Append one text span to the (reversed) part list, merging it into a
trailing text part when one exists; empty spans are skipped (the source's
`!text.is_empty()` match guard). -/
def pushUserTextPart (parts_rev : List ChatMessagePart) (text : String) :
    List ChatMessagePart :=
  if text.isEmpty then parts_rev
  else
    match parts_rev with
    | .text text_content :: rest => .text (text_content ++ text) :: rest
    | _ => .text text :: parts_rev

/-- One step of the User content-part loop (source lines 496–520), on the
reversed part list: Text and Thinking spans are pushed (merged into an
adjacent text part), Image blocks are included only when the model supports
vision, every other block is skipped. -/
def pushUserPart (model : CopilotChatModel) (parts_rev : List ChatMessagePart)
    (c : MessageContent) : List ChatMessagePart :=
  match c with
  | .text text => pushUserTextPart parts_rev text
  | .thinking text => pushUserTextPart parts_rev text
  | .image image =>
    if model.supports_vision then .image { url := image.to_base64_url } :: parts_rev
    else parts_rev
  | _ => parts_rev

/-- The content parts of the vendor User message built from a host User
message. -/
def userContentParts (model : CopilotChatModel) (content : List MessageContent) :
    List ChatMessagePart :=
  (content.foldl (pushUserPart model) []).reverse

/-- Translation of one host User message: Tool messages for its ToolResult
blocks first, then one User message when any content part remains. -/
def userMessages (model : CopilotChatModel) (content : List MessageContent) :
    List ChatMessage :=
  toolResultMessages model content ++
    (let content_parts := userContentParts model content
     if content_parts.isEmpty then [] else [ChatMessage.user (.multipart content_parts)])

/-- Whether a content block is a ToolUse block. -/
def MessageContent.isToolUse : MessageContent → Bool
  | .toolUse _ => true
  | _ => false

/-- The vendor tool calls collected from the ToolUse blocks of a host
Assistant message (source lines 529–543); each input is serialized to JSON
text. -/
def assistantToolCalls (content : List MessageContent) : List ToolCall :=
  content.filterMap fun c =>
    match c with
    | .toolUse tool_use =>
      some { id := tool_use.id
             content := .function { name := tool_use.name
                                    arguments := CJson.serialize tool_use.input } }
    | _ => none

/-- The concatenated Text/Thinking spans of a host Assistant message (source
lines 545–560). -/
def assistantTextContent (content : List MessageContent) : String :=
  content.foldl
    (fun buffer c =>
      match c with
      | .text text => buffer ++ text
      | .thinking text => buffer ++ text
      | _ => buffer)
    ""

/-- Translation of one host Assistant message. -/
def assistantMessage (content : List MessageContent) : ChatMessage :=
  let text_content := assistantTextContent content
  ChatMessage.assistant
    (if text_content.isEmpty then ChatMessageContent.empty else .plain text_content)
    (assistantToolCalls content)

/-- Modelled from the spec: `string_contents` is declared in the external
`language_model` crate; per the spec a System message flattens all content
blocks to one text field, modelled as the concatenation of the textual
spans. -/
def string_contents (content : List MessageContent) : String :=
  assistantTextContent content

/-- Translation of one coalesced host message into vendor messages. -/
def translateMessage (model : CopilotChatModel) (message : LanguageModelRequestMessage) :
    List ChatMessage :=
  match message.role with
  | .user => userMessages model message.content
  | .assistant => [assistantMessage message.content]
  | .system => [ChatMessage.system (string_contents message.content)]

/-- Whether translating this message sets the sticky `tool_called` flag: it
is an Assistant message holding a ToolUse block. -/
def messageSetsToolCalled (message : LanguageModelRequestMessage) : Bool :=
  match message.role with
  | .assistant => message.content.any MessageContent.isToolUse
  | _ => false

/-- The vendor messages of the whole coalesced message list, in order. -/
def translateMessages (model : CopilotChatModel) :
    List LanguageModelRequestMessage → List ChatMessage
  | [] => []
  | message :: rest => translateMessage model message ++ translateMessages model rest

/-- The final value of the sticky `tool_called` flag over the coalesced
message list. -/
def anyToolCalled : List LanguageModelRequestMessage → Bool
  | [] => false
  | message :: rest => messageSetsToolCalled message || anyToolCalled rest

/-- 1:1 translation of one host tool definition (source lines 577–587). -/
def translateTool (tool : LanguageModelRequestTool) : Tool :=
  .function { name := tool.name
              description := tool.description
              parameters := tool.input_schema }

/-- The synthetic tool injected when the history holds tool calls but the
tool list is empty (source lines 593–603). -/
def noopTool : Tool :=
  .function { name := "noop"
              description := "No operation"
              parameters := .obj [("type", .str "object")] }

/-- `into_copilot_chat`: coalesce, translate per role, translate the tools,
inject the synthetic tool when needed, and fill the fixed protocol fields.
Total in this model: `serde_json::to_string` on a `Value` is the one
fallible step in the source and never fails on a value. -/
def into_copilot_chat (model : CopilotChatModel) (request : LanguageModelRequest) :
    CopilotChatRequest :=
  let request_messages := coalesceMessages request.messages
  let messages := translateMessages model request_messages
  let tool_called := anyToolCalled request_messages
  let tools := request.tools.map translateTool
  let tools := if tool_called && tools.isEmpty then tools ++ [noopTool] else tools
  { intent := true
    n := 1
    stream := model.uses_streaming
    temperature := 1 / 10
    model := model.id
    messages := messages
    tools := tools
    tool_choice := request.tool_choice.map fun choice =>
      match choice with
      | .auto => CopilotToolChoice.auto
      | .any => CopilotToolChoice.any
      | .none => CopilotToolChoice.none }

/-- The empty-prompt guard message of `stream_completion`. -/
def EMPTY_PROMPT_MSG : String :=
  "Empty prompts aren't allowed. Please provide a non-empty prompt."

/-- The final-message-role guard message of `stream_completion`. -/
def USER_ROLE_MSG : String :=
  "The final message must be from the user. To provide a system prompt, you must provide the system prompt followed by a user prompt."

/-- Modelled from the spec: `contents_empty` is declared in the external
`language_model` crate and the spec does not define it; modelled as "the
message has no content blocks".  The guard theorems below hold for any
choice of this predicate. -/
def contentsEmpty (message : LanguageModelRequestMessage) : Bool :=
  message.content.isEmpty

/-- The synchronous prefix of `CopilotChatLanguageModel::stream_completion`
(source lines 270–289): validate the final message, then adapt the request;
an error return means no adaptation and no network exchange happened. -/
def streamCompletionPrepare (model : CopilotChatModel) (request : LanguageModelRequest) :
    Except String CopilotChatRequest :=
  match request.messages.getLast? with
  | some message =>
    if contentsEmpty message then .error EMPTY_PROMPT_MSG
    else if message.role ≠ Role.user then .error USER_ROLE_MSG
    else .ok (into_copilot_chat model request)
  | none => .ok (into_copilot_chat model request)

/-!
## Accumulator lemmas
-/

theorem ToolCallMap.lookup_setEntry_self (acc : ToolCallMap) (i : Nat) (v : RawToolCall) :
    (ToolCallMap.setEntry acc i v).lookup i = some v := by
  induction acc with
  | nil => simp [ToolCallMap.setEntry, List.lookup]
  | cons p rest ih =>
    obtain ⟨k, w⟩ := p
    by_cases h : k = i
    · subst h
      simp [ToolCallMap.setEntry, List.lookup]
    · have hb : (i == k) = false := by simp [Ne.symm h]
      simp [ToolCallMap.setEntry, h, List.lookup, hb, ih]

theorem ToolCallMap.lookup_setEntry_ne (acc : ToolCallMap) (i j : Nat) (v : RawToolCall)
    (h : j ≠ i) : (ToolCallMap.setEntry acc i v).lookup j = acc.lookup j := by
  induction acc with
  | nil => simp [ToolCallMap.setEntry, List.lookup, show (j == i) = false by simp [h]]
  | cons p rest ih =>
    obtain ⟨k, w⟩ := p
    by_cases hk : k = i
    · subst hk
      simp [ToolCallMap.setEntry, List.lookup, show (j == k) = false by simp [h]]
    · simp only [ToolCallMap.setEntry, if_neg hk]
      cases hjk : (j == k) <;> simp [List.lookup, hjk, ih]

theorem RawToolCall.applyChunk_eq (entry : RawToolCall) (tool_call : ToolCallChunk) :
    entry.applyChunk tool_call =
      { id := tool_call.id.getD entry.id
        name := (tool_call.function.bind FunctionChunk.name).getD entry.name
        arguments :=
          entry.arguments ++ (tool_call.function.bind FunctionChunk.arguments).getD "" } := by
  obtain ⟨eid, ename, eargs⟩ := entry
  obtain ⟨idx, oid, ofn⟩ := tool_call
  rcases ofn with _ | ⟨onm, oar⟩
  · cases oid <;> simp [RawToolCall.applyChunk]
  · cases oid <;> cases onm <;> cases oar <;> simp [RawToolCall.applyChunk]

/-!
## Concrete vendor event sequences used by the claims
-/

/-- A streamed event carrying exactly one tool-call fragment. -/
def toolCallFragmentEvent (tool_call : ToolCallChunk) : ResponseEvent :=
  { choices := [{ delta := some { content := none, tool_calls := [tool_call] }
                  message := none
                  finish_reason := none }] }

/-- A streamed event carrying only a finish reason. -/
def finishReasonEvent (reason : String) : ResponseEvent :=
  { choices := [{ delta := some { content := none, tool_calls := [] }
                  message := none
                  finish_reason := some reason }] }

/-- The tool-call reassembly scenario: fragments at index 0 delivering the
name, then the two argument halves, then `finish_reason="tool_calls"`. -/
def c1Events : List (Except String ResponseEvent) :=
  [ .ok (toolCallFragmentEvent
      { index := 0, id := none, function := some { name := some "foo", arguments := none } })
  , .ok (toolCallFragmentEvent
      { index := 0, id := none, function := some { name := none, arguments := some "\x7b\"x\":" } })
  , .ok (toolCallFragmentEvent
      { index := 0, id := none, function := some { name := none, arguments := some "1\x7d" } })
  , .ok (finishReasonEvent "tool_calls") ]

/-- The empty-arguments scenario: one fragment at index 0 carrying an id and
a name but no argument text, then `finish_reason="tool_calls"`. -/
def c4Events : List (Except String ResponseEvent) :=
  [ .ok (toolCallFragmentEvent
      { index := 0, id := some "call1", function := some { name := some "foo", arguments := none } })
  , .ok (finishReasonEvent "tool_calls") ]

/-!
## Claim theorems: stream normalizer
-/

/-- C1.  The canonical reassembly scenario — fragments at index 0 with
name "foo", then argument text "\x7b\"x\":", then "1\x7d", followed by
`finish_reason="tool_calls"` — yields exactly one ToolUse event with name
"foo", input the JSON object with member x = 1, raw_input the concatenated
buffer, `is_input_complete = true`, then Stop(ToolUse); and in general an
incoming fragment updates the accumulator entry at its index — an incoming
id replaces the stored id, an incoming name replaces the stored name,
incoming argument text is appended to the stored buffer — leaving every
other index unchanged. -/
theorem c1_tool_call_reassembly :
    (map_to_language_model_completion_events c1Events true
      = [ .ok (.toolUse { id := "", name := "foo", is_input_complete := true
                          input := .obj [("x", .num "1")], raw_input := "\x7b\"x\":1\x7d" })
        , .ok (.stop .toolUse) ])
    ∧ (∀ (acc : ToolCallMap) (tool_call : ToolCallChunk),
        (applyToolCallFragment acc tool_call).lookup tool_call.index
          = some (((acc.lookup tool_call.index).getD {}).applyChunk tool_call))
    ∧ (∀ (acc : ToolCallMap) (tool_call : ToolCallChunk) (j : Nat),
        j ≠ tool_call.index →
        (applyToolCallFragment acc tool_call).lookup j = acc.lookup j)
    ∧ (∀ (entry : RawToolCall) (tool_call : ToolCallChunk),
        entry.applyChunk tool_call =
          { id := tool_call.id.getD entry.id
            name := (tool_call.function.bind FunctionChunk.name).getD entry.name
            arguments :=
              entry.arguments ++ (tool_call.function.bind FunctionChunk.arguments).getD "" }) := by
  refine ⟨rfl, ?_, ?_, RawToolCall.applyChunk_eq⟩
  · intro acc tool_call
    exact ToolCallMap.lookup_setEntry_self acc tool_call.index _
  · intro acc tool_call j hj
    exact ToolCallMap.lookup_setEntry_ne acc tool_call.index j _ hj

/-- Witness for C1: the accumulator-update clauses evaluated on a concrete
accumulator holding index 1, hit by a full fragment at index 0. -/
theorem c1_tool_call_reassembly_witness :
    ((applyToolCallFragment [(1, { id := "a", name := "b", arguments := "c" })]
        { index := 0, id := some "id0"
          function := some { name := some "foo", arguments := some "ar" } }).lookup 0
      = some { id := "id0", name := "foo", arguments := "ar" })
    ∧ ((applyToolCallFragment [(1, { id := "a", name := "b", arguments := "c" })]
        { index := 0, id := some "id0"
          function := some { name := some "foo", arguments := some "ar" } }).lookup 1
      = some { id := "a", name := "b", arguments := "c" }) := by
  have h := c1_tool_call_reassembly
  refine ⟨?_, ?_⟩
  · simpa using h.2.1 [(1, { id := "a", name := "b", arguments := "c" })]
      { index := 0, id := some "id0"
        function := some { name := some "foo", arguments := some "ar" } }
  · simpa using h.2.2.1 [(1, { id := "a", name := "b", arguments := "c" })]
      { index := 0, id := some "id0"
        function := some { name := some "foo", arguments := some "ar" } }
      1 (by decide)

/-- C2 counterexample.  A transport failure followed by one more vendor
event: the normalizer surfaces the failure as one Error event and then keeps
processing — the output does not end after the Error event. -/
theorem c2_transport_error_counterexample :
    (map_to_language_model_completion_events
        [.error "boom", .ok (finishReasonEvent "stop")] true
      = [.error (.other "boom"), .ok (.stop .endTurn)])
    ∧ (map_to_language_model_completion_events
        [.error "boom", .ok (finishReasonEvent "stop")] true).length = 2 :=
  ⟨rfl, rfl⟩

/-- C2 as amended.  A transport failure is surfaced as exactly one Error
event, after which the normalizer continues consuming the source with its
accumulator intact; the output ends exactly when the source ends, so the
Error event is final precisely when the failure is the last item the source
yields. -/
theorem c2_transport_error_amended :
    (∀ (is_streaming : Bool) (err : String) (rest : List (Except String ResponseEvent))
        (acc : ToolCallMap),
      runNormalizer is_streaming (.error err :: rest) acc
        = .error (.other err) :: runNormalizer is_streaming rest acc)
    ∧ (∀ (is_streaming : Bool) (acc : ToolCallMap), runNormalizer is_streaming [] acc = [])
    ∧ (∀ (is_streaming : Bool) (err : String) (acc : ToolCallMap),
      runNormalizer is_streaming [.error err] acc = [.error (.other err)]) :=
  ⟨fun _ _ _ _ => rfl, fun _ _ => rfl, fun _ _ _ => rfl⟩

/-- C4.  An accumulated tool call whose argument buffer is empty at drain
time becomes a ToolUse event with the empty JSON object as input and
`is_input_complete = true` (not a parse error); in the full pipeline, a
fragment at index 0 with no argument text followed by
`finish_reason="tool_calls"` yields that ToolUse then Stop(ToolUse). -/
theorem c4_empty_arguments_tool_call :
    (∀ id name : String,
      drainToolCall { id := id, name := name, arguments := "" }
        = .ok (.toolUse { id := id, name := name, is_input_complete := true
                          input := .obj [], raw_input := "" }))
    ∧ (map_to_language_model_completion_events c4Events true
        = [ .ok (.toolUse { id := "call1", name := "foo", is_input_complete := true
                            input := .obj [], raw_input := "" })
          , .ok (.stop .toolUse) ]) :=
  ⟨fun _ _ => rfl, rfl⟩

/-- C5.  For an event whose (first) choice carries a delta and
`finish_reason="stop"`, the finish-reason handling contributes exactly
Stop(EndTurn): the output is the delta's text content followed by
Stop(EndTurn), contains no ToolUse event, and the accumulator is not
drained — fragments of the same event are still folded in and every
buffered entry is kept. -/
theorem c5_stop_mapping (is_streaming : Bool) (acc : ToolCallMap)
    (event : ResponseEvent) (choice : ResponseChoice) (delta : ResponseDelta)
    (hchoice : event.choices.head? = some choice)
    (hdelta : (if is_streaming then choice.delta else choice.message) = some delta)
    (hfin : choice.finish_reason = some "stop") :
    ((processEvent is_streaming acc event).1
      = (match delta.content with
         | some content => [.ok (.text content)]
         | none => []) ++ [.ok (.stop .endTurn)])
    ∧ (∀ e ∈ (processEvent is_streaming acc event).1,
        ∀ t : LanguageModelToolUse, e ≠ .ok (.toolUse t))
    ∧ (processEvent is_streaming acc event).2
        = delta.tool_calls.foldl applyToolCallFragment acc := by
  have hp : processEvent is_streaming acc event
      = ((match delta.content with
          | some content => [.ok (.text content)]
          | none => []) ++ [.ok (.stop .endTurn)],
         delta.tool_calls.foldl applyToolCallFragment acc) := by
    simp only [processEvent, hchoice, hdelta, hfin]
  refine ⟨by rw [hp], ?_, by rw [hp]⟩
  rw [hp]
  intro e he t
  rcases hc : delta.content with _ | content <;> rw [hc] at he <;> simp at he
  · subst he; simp
  · rcases he with he | he <;> subst he <;> simp

/-- Witness for C5: a "stop" event processed while the accumulator holds an
unfinished buffered fragment emits exactly Stop(EndTurn) and keeps the
buffer. -/
theorem c5_stop_mapping_witness :
    ((processEvent true [(0, { id := "", name := "f", arguments := "\x7b\"a\":" })]
        (finishReasonEvent "stop")).1 = [.ok (.stop .endTurn)])
    ∧ (∀ e ∈ (processEvent true [(0, { id := "", name := "f", arguments := "\x7b\"a\":" })]
        (finishReasonEvent "stop")).1,
        ∀ t : LanguageModelToolUse, e ≠ .ok (.toolUse t))
    ∧ (processEvent true [(0, { id := "", name := "f", arguments := "\x7b\"a\":" })]
        (finishReasonEvent "stop")).2
        = [(0, { id := "", name := "f", arguments := "\x7b\"a\":" })] := by
  have h := c5_stop_mapping true [(0, { id := "", name := "f", arguments := "\x7b\"a\":" })]
    (finishReasonEvent "stop")
    { delta := some { content := none, tool_calls := [] }
      message := none, finish_reason := some "stop" }
    { content := none, tool_calls := [] } rfl rfl rfl
  exact ⟨h.1, h.2.1, h.2.2⟩

/-- C10.  Processing any delta-bearing event whose finish reason is
"tool_calls" leaves the accumulator empty; consequently a later
"tool_calls" event with no intervening fragments (and no text) emits only
Stop(ToolUse) — no accumulated tool call is emitted twice. -/
theorem c10_drain_empties_accumulator :
    (∀ (is_streaming : Bool) (acc : ToolCallMap) (event : ResponseEvent)
        (choice : ResponseChoice) (delta : ResponseDelta),
      event.choices.head? = some choice →
      (if is_streaming then choice.delta else choice.message) = some delta →
      choice.finish_reason = some "tool_calls" →
      (processEvent is_streaming acc event).2 = [])
    ∧ (∀ (is_streaming : Bool) (event : ResponseEvent)
        (choice : ResponseChoice) (delta : ResponseDelta),
      event.choices.head? = some choice →
      (if is_streaming then choice.delta else choice.message) = some delta →
      delta.content = none → delta.tool_calls = [] →
      choice.finish_reason = some "tool_calls" →
      (processEvent is_streaming [] event).1 = [.ok (.stop .toolUse)]) := by
  constructor
  · intro is_streaming acc event choice delta hchoice hdelta hfin
    simp only [processEvent, hchoice, hdelta, hfin]
  · intro is_streaming event choice delta hchoice hdelta hcontent hcalls hfin
    simp only [processEvent, hchoice, hdelta, hfin, hcontent, hcalls]
    rfl

/-- Witness for C10: a "tool_calls" event drains a one-entry accumulator to
empty, and a second "tool_calls" event processed from the empty accumulator
emits only Stop(ToolUse). -/
theorem c10_drain_empties_accumulator_witness :
    ((processEvent true [(0, { id := "i", name := "n", arguments := "" })]
        (finishReasonEvent "tool_calls")).2 = [])
    ∧ (processEvent true [] (finishReasonEvent "tool_calls")).1
        = [.ok (.stop .toolUse)] := by
  have h := c10_drain_empties_accumulator
  exact ⟨h.1 true [(0, { id := "i", name := "n", arguments := "" })]
      (finishReasonEvent "tool_calls")
      { delta := some { content := none, tool_calls := [] }
        message := none, finish_reason := some "tool_calls" }
      { content := none, tool_calls := [] } rfl rfl rfl,
    h.2 true (finishReasonEvent "tool_calls")
      { delta := some { content := none, tool_calls := [] }
        message := none, finish_reason := some "tool_calls" }
      { content := none, tool_calls := [] } rfl rfl rfl rfl rfl⟩

/-- C3.  At drain time a non-empty argument buffer that fails to parse
yields, in place of a ToolUse event, a structured error carrying the
tool-call id, the tool name, the raw buffered text and the parse error
message; an entry whose buffer parses still yields its ToolUse event; and
the drain emits one converted item per accumulated entry followed by
Stop(ToolUse), after which the normalizer keeps processing the remaining
events. -/
theorem c3_tool_argument_parse_error :
    (∀ id name args err : String, args ≠ "" → CJson.parse args = .error err →
      drainToolCall { id := id, name := name, arguments := args }
        = .error (.badInputJson id name args err))
    ∧ (∀ (id name args : String) (input : CJson), CJson.parse args = .ok input →
      drainToolCall { id := id, name := name, arguments := args }
        = .ok (.toolUse { id := id, name := name, is_input_complete := true
                          input := input, raw_input := args }))
    ∧ (∀ (is_streaming : Bool) (acc : ToolCallMap) (event : ResponseEvent)
        (choice : ResponseChoice) (delta : ResponseDelta)
        (rest : List (Except String ResponseEvent)),
      event.choices.head? = some choice →
      (if is_streaming then choice.delta else choice.message) = some delta →
      choice.finish_reason = some "tool_calls" →
      runNormalizer is_streaming (.ok event :: rest) acc
        = (match delta.content with
           | some content => [.ok (.text content)]
           | none => [])
          ++ (delta.tool_calls.foldl applyToolCallFragment acc).map
              (fun p => drainToolCall p.2)
          ++ ([.ok (.stop .toolUse)] ++ runNormalizer is_streaming rest [])) := by
  refine ⟨?_, ?_, ?_⟩
  · intro id name args err hne hparse
    have hE : args.isEmpty = false := by
      rcases hEq : args.isEmpty
      · rfl
      · exact absurd ((String.isEmpty_iff args).mp hEq) hne
    simp [drainToolCall, hE, hparse]
  · intro id name args input hparse
    rcases hEq : args.isEmpty
    · simp [drainToolCall, hEq, hparse]
    · have : args = "" := (String.isEmpty_iff args).mp hEq
      subst this
      rw [show CJson.parse "" = .error "expected value, found end of input" from rfl] at hparse
      cases hparse
  · intro is_streaming acc event choice delta rest hchoice hdelta hfin
    have hp : processEvent is_streaming acc event
        = ((match delta.content with
            | some content => [.ok (.text content)]
            | none => [])
           ++ (delta.tool_calls.foldl applyToolCallFragment acc).map
               (fun p => drainToolCall p.2)
           ++ [.ok (.stop .toolUse)], []) := by
      simp only [processEvent, hchoice, hdelta, hfin]
    simp only [runNormalizer, hp, List.append_assoc]

/-- Witness for C3: the buffer "\x7bnot json" drains to a structured error
carrying the id, the name, the raw text and the parse message, a sibling
buffer "\x7b\x7d" still drains to a ToolUse event, and a drain event with
both entries buffered emits both items, then Stop(ToolUse), then keeps
processing the rest of the sequence. -/
theorem c3_tool_argument_parse_error_witness :
    (drainToolCall { id := "id1", name := "tool", arguments := "\x7bnot json" }
      = .error (.badInputJson "id1" "tool" "\x7bnot json" "key must be a string"))
    ∧ (drainToolCall { id := "id2", name := "sib", arguments := "\x7b\x7d" }
      = .ok (.toolUse { id := "id2", name := "sib", is_input_complete := true
                        input := .obj [], raw_input := "\x7b\x7d" }))
    ∧ (runNormalizer true [.ok (finishReasonEvent "tool_calls"), .error "late"]
        [(0, { id := "id1", name := "tool", arguments := "\x7bnot json" }),
         (1, { id := "id2", name := "sib", arguments := "\x7b\x7d" })]
      = [ .error (.badInputJson "id1" "tool" "\x7bnot json" "key must be a string")
        , .ok (.toolUse { id := "id2", name := "sib", is_input_complete := true
                          input := .obj [], raw_input := "\x7b\x7d" })
        , .ok (.stop .toolUse)
        , .error (.other "late") ]) := by
  have h := c3_tool_argument_parse_error
  refine ⟨h.1 "id1" "tool" "\x7bnot json" "key must be a string" (by decide) rfl,
    h.2.1 "id2" "sib" "\x7b\x7d" (.obj []) rfl, ?_⟩
  have hrun := h.2.2 true
    [(0, { id := "id1", name := "tool", arguments := "\x7bnot json" }),
     (1, { id := "id2", name := "sib", arguments := "\x7b\x7d" })]
    (finishReasonEvent "tool_calls")
    { delta := some { content := none, tool_calls := [] }
      message := none, finish_reason := some "tool_calls" }
    { content := none, tool_calls := [] }
    [.error "late"] rfl rfl rfl
  rw [hrun]
  rfl

/-- C9.  When the request has messages and the final one is not
User-authored, `stream_completion` returns an error from its synchronous
guard (the empty-prompt or the final-role message), so `into_copilot_chat`
is never reached and nothing is sent to the vendor. -/
theorem c9_final_role_guard (model : CopilotChatModel) (request : LanguageModelRequest)
    (message : LanguageModelRequestMessage)
    (hlast : request.messages.getLast? = some message)
    (hrole : message.role ≠ Role.user) :
    streamCompletionPrepare model request = .error EMPTY_PROMPT_MSG
    ∨ streamCompletionPrepare model request = .error USER_ROLE_MSG := by
  simp only [streamCompletionPrepare, hlast]
  rcases hE : contentsEmpty message
  · right; simp [hE, hrole]
  · left; simp [hE]

/-- The model descriptor used by the concrete guard witness. -/
def c9Model : CopilotChatModel :=
  { id := "gpt", supports_vision := false, uses_streaming := true }

/-- A request whose final message is Assistant-authored. -/
def c9Request : LanguageModelRequest :=
  { messages := [{ role := .assistant, content := [.text "x"] }]
    tools := [], tool_choice := none }

/-- Witness for C9: a request ending in an Assistant message is rejected by
the guard. -/
theorem c9_final_role_guard_witness :
    streamCompletionPrepare c9Model c9Request = .error EMPTY_PROMPT_MSG
    ∨ streamCompletionPrepare c9Model c9Request = .error USER_ROLE_MSG :=
  c9_final_role_guard c9Model c9Request { role := .assistant, content := [.text "x"] }
    rfl (by decide)

/-!
## Adapter lemmas: coalescing, the sticky tool-call flag, image parts
-/

/-- Message predicates of the form "has role `q` and some content block
satisfying `f`"; both the sticky tool-call flag and image presence are of
this shape, which coalescing preserves. -/
def roleBlockAny (q : Role → Bool) (f : MessageContent → Bool)
    (message : LanguageModelRequestMessage) : Bool :=
  q message.role && message.content.any f

theorem coalesceStep_any (q : Role → Bool) (f : MessageContent → Bool)
    (acc : List LanguageModelRequestMessage) (m : LanguageModelRequestMessage) :
    ((coalesceStep acc m).any (roleBlockAny q f))
      = (acc.any (roleBlockAny q f) || roleBlockAny q f m) := by
  match acc with
  | [] => simp [coalesceStep]
  | last :: rest =>
    by_cases h : last.role = m.role
    · simp only [coalesceStep, if_pos h, List.any_cons, h]
      simp [roleBlockAny, List.any_append, Bool.and_or_distrib_left, Bool.or_assoc,
        Bool.or_comm, Bool.or_left_comm, h]
    · simp only [coalesceStep, if_neg h, List.any_cons, roleBlockAny]
      simp [Bool.or_assoc, Bool.or_comm, Bool.or_left_comm]

theorem foldl_coalesceStep_any (q : Role → Bool) (f : MessageContent → Bool)
    (msgs : List LanguageModelRequestMessage) :
    ∀ acc, ((msgs.foldl coalesceStep acc).any (roleBlockAny q f))
      = (acc.any (roleBlockAny q f) || msgs.any (roleBlockAny q f)) := by
  induction msgs with
  | nil => simp
  | cons m rest ih =>
    intro acc
    simp [List.foldl_cons, ih, coalesceStep_any, List.any_cons, Bool.or_assoc]

theorem coalesceMessages_any (q : Role → Bool) (f : MessageContent → Bool)
    (msgs : List LanguageModelRequestMessage) :
    (coalesceMessages msgs).any (roleBlockAny q f) = msgs.any (roleBlockAny q f) := by
  simp [coalesceMessages, foldl_coalesceStep_any]

/-- Role test for Assistant. -/
def roleIsAssistant : Role → Bool
  | .assistant => true
  | _ => false

theorem messageSetsToolCalled_eq :
    messageSetsToolCalled = roleBlockAny roleIsAssistant MessageContent.isToolUse := by
  funext m
  obtain ⟨r, c⟩ := m
  cases r <;> rfl

theorem anyToolCalled_eq (msgs : List LanguageModelRequestMessage) :
    anyToolCalled msgs = msgs.any messageSetsToolCalled := by
  induction msgs with
  | nil => rfl
  | cons m rest ih => simp [anyToolCalled, ih]

/-- Whether the request history holds a ToolUse block inside an Assistant
message. -/
def historyHasAssistantToolUse (msgs : List LanguageModelRequestMessage) : Bool :=
  msgs.any messageSetsToolCalled

theorem anyToolCalled_coalesce (msgs : List LanguageModelRequestMessage) :
    anyToolCalled (coalesceMessages msgs) = historyHasAssistantToolUse msgs := by
  rw [anyToolCalled_eq, historyHasAssistantToolUse, messageSetsToolCalled_eq,
    coalesceMessages_any]

theorem into_copilot_chat_tools (model : CopilotChatModel) (request : LanguageModelRequest) :
    (into_copilot_chat model request).tools
      = (if historyHasAssistantToolUse request.messages
            && (request.tools.map translateTool).isEmpty
         then request.tools.map translateTool ++ [noopTool]
         else request.tools.map translateTool) := by
  simp only [into_copilot_chat, anyToolCalled_coalesce]

/-!
## Claim theorems: request adapter
-/

/-- C6.  When the history holds a ToolUse block in an Assistant message and
the translated tool list is empty, the vendor tool list is exactly one
synthetic entry with fixed name "noop", fixed description and the minimal
empty-object schema; otherwise the tool list is the 1:1 translation with no
synthetic entry appended. -/
theorem c6_noop_tool_injection (model : CopilotChatModel) (request : LanguageModelRequest) :
    ((historyHasAssistantToolUse request.messages = true → request.tools = [] →
      (into_copilot_chat model request).tools
        = [Tool.function { name := "noop", description := "No operation"
                           parameters := .obj [("type", .str "object")] }]))
    ∧ ((historyHasAssistantToolUse request.messages = false ∨ request.tools ≠ []) →
      (into_copilot_chat model request).tools = request.tools.map translateTool) := by
  constructor
  · intro h1 h2
    rw [into_copilot_chat_tools, h1, h2]
    rfl
  · intro h
    rw [into_copilot_chat_tools]
    rcases h with h | h
    · rw [h]
      simp
    · rcases ht : request.tools with _ | ⟨t, ts⟩
      · exact absurd ht h
      · simp

/-- A request whose history holds an Assistant ToolUse block and no tool
definitions. -/
def c6Request : LanguageModelRequest :=
  { messages := [ { role := .assistant
                    content := [.toolUse { id := "1", name := "t", input := .obj [] }] }
                , { role := .user, content := [.text "go"] } ]
    tools := [], tool_choice := none }

/-- A request with no ToolUse block and no tool definitions. -/
def c6RequestNoTools : LanguageModelRequest :=
  { messages := [{ role := .user, content := [.text "go"] }]
    tools := [], tool_choice := none }

/-- Witness for C6: the synthetic tool appears exactly for the tool-history
request and not for the plain one. -/
theorem c6_noop_tool_injection_witness :
    ((into_copilot_chat c9Model c6Request).tools
      = [Tool.function { name := "noop", description := "No operation"
                         parameters := .obj [("type", .str "object")] }])
    ∧ ((into_copilot_chat c9Model c6RequestNoTools).tools
      = c6RequestNoTools.tools.map translateTool) :=
  ⟨(c6_noop_tool_injection c9Model c6Request).1 rfl rfl,
   (c6_noop_tool_injection c9Model c6RequestNoTools).2 (Or.inl rfl)⟩

/-- A vision-capable model descriptor. -/
def c7Model : CopilotChatModel :=
  { id := "gpt", supports_vision := true, uses_streaming := true }

/-- The coalescing scenario [User("a"), User("b")]. -/
def c7Request : LanguageModelRequest :=
  { messages := [ { role := .user, content := [.text "a"] }
                , { role := .user, content := [.text "b"] } ]
    tools := [], tool_choice := none }

/-- C7 counterexample.  [User("a"), User("b")] adapts to one vendor User
message whose content is the single merged text part "ab" — not the two
text parts "a","b" the claim states: adjacent text spans are merged into
one part during translation. -/
theorem c7_coalescing_counterexample :
    ((into_copilot_chat c7Model c7Request).messages
      = [ChatMessage.user (.multipart [.text "ab"])])
    ∧ ((into_copilot_chat c7Model c7Request).messages
      ≠ [ChatMessage.user (.multipart [.text "a", .text "b"])]) :=
  ⟨rfl, by decide⟩

/-- C7 as amended.  Consecutive messages sharing a role are merged into one
message concatenating their content blocks in order before translation; in
particular [User("a"), User("b")] adapts to exactly one vendor User message
whose single text part is the concatenation "ab" (adjacent text spans are
merged into one part). -/
theorem c7_coalescing_amended :
    (∀ (role : Role) (c1 c2 : List MessageContent)
        (rest : List LanguageModelRequestMessage),
      coalesceMessages ({ role := role, content := c1 }
          :: { role := role, content := c2 } :: rest)
        = coalesceMessages ({ role := role, content := c1 ++ c2 } :: rest))
    ∧ ((into_copilot_chat c7Model c7Request).messages
        = [ChatMessage.user (.multipart [.text "ab"])]) := by
  constructor
  · intro role c1 c2 rest
    simp [coalesceMessages, coalesceStep]
  · rfl

/-- Whether a vendor content part is an image part. -/
def ChatMessagePart.isImagePart : ChatMessagePart → Bool
  | .image _ => true
  | .text _ => false

/-- Whether a vendor message body holds an image part. -/
def ChatMessageContent.hasImagePart : ChatMessageContent → Bool
  | .plain _ => false
  | .multipart parts => parts.any ChatMessagePart.isImagePart

/-- Whether a vendor message holds an image part. -/
def ChatMessage.hasImagePart : ChatMessage → Bool
  | .system _ => false
  | .user content => content.hasImagePart
  | .assistant content _ => content.hasImagePart
  | .tool _ content => content.hasImagePart

/-- Whether the vendor wire request holds any image part. -/
def CopilotChatRequest.hasImagePart (r : CopilotChatRequest) : Bool :=
  r.messages.any ChatMessage.hasImagePart

/-- Whether a host content block is an Image block. -/
def MessageContent.isImageBlock : MessageContent → Bool
  | .image _ => true
  | _ => false

/-- Whether a host content block is a ToolResult whose content is an
image. -/
def MessageContent.isImageToolResult : MessageContent → Bool
  | .toolResult tool_result =>
    match tool_result.content with
    | .image _ => true
    | .text _ => false
  | _ => false

/-- A host content block that can contribute an image part from a User
message: an Image block or an image ToolResult. -/
def userImageBlock (c : MessageContent) : Bool :=
  c.isImageBlock || c.isImageToolResult

/-- Role test for User. -/
def roleIsUser : Role → Bool
  | .user => true
  | _ => false

/-- Whether some User message of the history holds an Image block or an
image ToolResult. -/
def historyHasUserImage (msgs : List LanguageModelRequestMessage) : Bool :=
  msgs.any (roleBlockAny roleIsUser userImageBlock)

theorem any_or_distrib {α : Type} (l : List α) (f g : α → Bool) :
    (l.any fun c => f c || g c) = (l.any f || l.any g) := by
  induction l with
  | nil => rfl
  | cons a l ih =>
    simp only [List.any_cons, ih]
    cases f a <;> cases g a <;> simp

theorem toolResultMessages_hasImagePart (model : CopilotChatModel)
    (content : List MessageContent) :
    (toolResultMessages model content).any ChatMessage.hasImagePart
      = (model.supports_vision && content.any MessageContent.isImageToolResult) := by
  induction content with
  | nil => simp [toolResultMessages]
  | cons c rest ih =>
    rcases c with s | t | d | img | tu | tr
    case toolResult =>
      obtain ⟨tuid, tname, tcontent⟩ := tr
      rcases tcontent with t | i
      · simp [toolResultMessages, ChatMessage.hasImagePart,
          ChatMessageContent.hasImagePart, MessageContent.isImageToolResult, ih]
      · rcases hsv : model.supports_vision
        · simp [toolResultMessages, ChatMessage.hasImagePart,
            ChatMessageContent.hasImagePart, MessageContent.isImageToolResult, hsv, ih]
        · simp [toolResultMessages, ChatMessage.hasImagePart,
            ChatMessageContent.hasImagePart, ChatMessagePart.isImagePart,
            MessageContent.isImageToolResult, hsv, ih]
    all_goals simp [toolResultMessages, MessageContent.isImageToolResult, ih]

theorem pushUserTextPart_isImagePart (parts_rev : List ChatMessagePart) (text : String) :
    (pushUserTextPart parts_rev text).any ChatMessagePart.isImagePart
      = parts_rev.any ChatMessagePart.isImagePart := by
  rcases hE : text.isEmpty
  · rcases parts_rev with _ | ⟨p, rest⟩
    · simp [pushUserTextPart, hE, ChatMessagePart.isImagePart]
    · rcases p with t | i <;>
        simp [pushUserTextPart, hE, ChatMessagePart.isImagePart]
  · simp [pushUserTextPart, hE]

theorem pushUserPart_isImagePart (model : CopilotChatModel)
    (parts_rev : List ChatMessagePart) (c : MessageContent) :
    ((pushUserPart model parts_rev c).any ChatMessagePart.isImagePart)
      = (parts_rev.any ChatMessagePart.isImagePart
         || (model.supports_vision && c.isImageBlock)) := by
  rcases c with s | t | d | img | tu | tr
  case image =>
    rcases hsv : model.supports_vision <;>
      simp [pushUserPart, MessageContent.isImageBlock, hsv, ChatMessagePart.isImagePart]
  all_goals
    simp [pushUserPart, MessageContent.isImageBlock, pushUserTextPart_isImagePart]

theorem foldl_pushUserPart_isImagePart (model : CopilotChatModel)
    (content : List MessageContent) :
    ∀ parts_rev : List ChatMessagePart,
      ((content.foldl (pushUserPart model) parts_rev).any ChatMessagePart.isImagePart)
        = (parts_rev.any ChatMessagePart.isImagePart
           || (model.supports_vision && content.any MessageContent.isImageBlock)) := by
  induction content with
  | nil => simp
  | cons c rest ih =>
    intro parts_rev
    simp [List.foldl_cons, ih, pushUserPart_isImagePart, List.any_cons,
      Bool.and_or_distrib_left, Bool.or_assoc]

theorem userContentParts_isImagePart (model : CopilotChatModel)
    (content : List MessageContent) :
    (userContentParts model content).any ChatMessagePart.isImagePart
      = (model.supports_vision && content.any MessageContent.isImageBlock) := by
  simp [userContentParts, foldl_pushUserPart_isImagePart]

theorem userMessages_hasImagePart (model : CopilotChatModel)
    (content : List MessageContent) :
    (userMessages model content).any ChatMessage.hasImagePart
      = (model.supports_vision && content.any userImageBlock) := by
  have h2 : ((let content_parts := userContentParts model content
              if content_parts.isEmpty then ([] : List ChatMessage)
              else [ChatMessage.user (.multipart content_parts)]).any
                ChatMessage.hasImagePart)
      = (userContentParts model content).any ChatMessagePart.isImagePart := by
    rcases hP : (userContentParts model content).isEmpty
    · simp [hP, ChatMessage.hasImagePart, ChatMessageContent.hasImagePart]
    · have hnil : userContentParts model content = [] := by
        simpa using hP
      simp [hP, hnil]
  have hsplitlist := congrArg (fun l => l.any ChatMessage.hasImagePart)
    (show userMessages model content
        = toolResultMessages model content ++
            (let content_parts := userContentParts model content
             if content_parts.isEmpty then ([] : List ChatMessage)
             else [ChatMessage.user (.multipart content_parts)]) from rfl)
  simp only [List.any_append] at hsplitlist
  rw [hsplitlist, h2, toolResultMessages_hasImagePart, userContentParts_isImagePart]
  have hsplit : content.any userImageBlock
      = (content.any MessageContent.isImageBlock
         || content.any MessageContent.isImageToolResult) := by
    rw [← any_or_distrib]
    rfl
  rw [hsplit]
  cases model.supports_vision <;>
    cases content.any MessageContent.isImageBlock <;>
      cases content.any MessageContent.isImageToolResult <;> simp

theorem assistantMessage_hasImagePart (content : List MessageContent) :
    (assistantMessage content).hasImagePart = false := by
  unfold assistantMessage
  rcases hE : (assistantTextContent content).isEmpty <;>
    simp [hE, ChatMessage.hasImagePart, ChatMessageContent.hasImagePart,
      ChatMessageContent.empty]

theorem translateMessage_hasImagePart (model : CopilotChatModel)
    (m : LanguageModelRequestMessage) :
    (translateMessage model m).any ChatMessage.hasImagePart
      = (model.supports_vision && roleBlockAny roleIsUser userImageBlock m) := by
  obtain ⟨r, content⟩ := m
  cases r
  · simp [translateMessage, userMessages_hasImagePart, roleBlockAny, roleIsUser]
  · simp [translateMessage, assistantMessage_hasImagePart, roleBlockAny, roleIsUser]
  · simp [translateMessage, ChatMessage.hasImagePart, roleBlockAny, roleIsUser]

theorem translateMessages_hasImagePart (model : CopilotChatModel)
    (msgs : List LanguageModelRequestMessage) :
    (translateMessages model msgs).any ChatMessage.hasImagePart
      = (model.supports_vision && msgs.any (roleBlockAny roleIsUser userImageBlock)) := by
  induction msgs with
  | nil => simp [translateMessages]
  | cons m rest ih =>
    simp [translateMessages, List.any_append, translateMessage_hasImagePart, ih,
      List.any_cons, Bool.and_or_distrib_left]

/-- A request whose only Image block sits in an Assistant message. -/
def c8Request : LanguageModelRequest :=
  { messages := [ { role := .assistant, content := [.image { base64_url := "IMG" }] }
                , { role := .user, content := [.text "hi"] } ]
    tools := [], tool_choice := none }

/-- C8 counterexample.  A request containing an Image content block (in an
Assistant message) adapted for a vision-capable model yields a vendor
request with no image part: the stated "image part present iff
supports_vision" fails, because only User-message images survive
translation. -/
theorem c8_vision_gating_counterexample :
    c7Model.supports_vision = true
    ∧ (c8Request.messages.any fun m => m.content.any MessageContent.isImageBlock) = true
    ∧ (into_copilot_chat c7Model c8Request).hasImagePart = false :=
  ⟨rfl, rfl, rfl⟩

/-- C8 as amended.  An image part is present in the adapted vendor request
iff the model supports vision AND some User message holds an Image block or
an image ToolResult: with vision support those blocks become image parts;
without it User images are dropped and image ToolResults are replaced by the
sentinel diagnostic text, so no image part ever appears. -/
theorem c8_vision_gating_amended (model : CopilotChatModel)
    (request : LanguageModelRequest) :
    (into_copilot_chat model request).hasImagePart
      = (model.supports_vision && historyHasUserImage request.messages) := by
  have hm : (into_copilot_chat model request).messages
      = translateMessages model (coalesceMessages request.messages) := by
    simp [into_copilot_chat]
  unfold CopilotChatRequest.hasImagePart
  rw [hm, translateMessages_hasImagePart]
  unfold historyHasUserImage
  rw [coalesceMessages_any]
